import Mathlib

/-!
Verification of the zcc compiler pipeline (src/main.rs): lexer, event-based
CST parser, tree builder, lowering to an instruction IR, and assembly
emission.  Every definition below is a shallow embedding of the
corresponding Rust item; strings are modelled as `List Char`, with the
lexer's one-byte slice advance (which panics on multibyte characters)
modelled separately in `lexerBytes`; fallible operations return
`Option`/`Except`, and the parser's single mutable state is threaded
explicitly.
-/

namespace Zcc

/-- Token kinds, from `enum TokenKind` in src/main.rs. -/
inductive TokenKind where
  | Identifier
  | Constant
  | Keyword
  | OpenParen
  | CloseParen
  | OpenBrace
  | CloseBrace
  | Semicolon
  | Eof
  | ErrorToken
deriving DecidableEq

/-- A token: kind plus exact matched lexeme, from `struct Token`. -/
structure Token where
  kind : TokenKind
  text : String
deriving DecidableEq

/-- Word character, modelling the regex class `\w` (ASCII range, as used by
the lexer's patterns `[a-zA-Z_]\w*` and the `\b` boundaries). -/
def isWordChar (c : Char) : Bool :=
  c.isAlpha || c.isDigit || c = '_'

/-- First character of an identifier: the regex class `[a-zA-Z_]`. -/
def isIdentStart (c : Char) : Bool :=
  c.isAlpha || c = '_'

/-- A `\b` word boundary holds after a matched run when the remaining input
is empty or starts with a non-word character. -/
def boundaryAfter : List Char → Bool
  | [] => true
  | d :: _ => !isWordChar d

/-- Rust's `char::is_whitespace`: the Unicode `White_Space` property —
U+0009..U+000D, U+0020, U+0085 (NEL), U+00A0 (NBSP), U+1680 (OGHAM SPACE
MARK), U+2000..U+200A, U+2028 (LINE SEPARATOR), U+2029 (PARAGRAPH
SEPARATOR), U+202F (NARROW NBSP), U+205F (MMSP), U+3000 (IDEOGRAPHIC
SPACE). -/
def rustIsWhitespace (c : Char) : Bool :=
  let n := c.toNat
  decide ((0x09 ≤ n ∧ n ≤ 0x0D) ∨ n = 0x20 ∨ n = 0x85 ∨ n = 0xA0 ∨ n = 0x1680 ∨
    (0x2000 ≤ n ∧ n ≤ 0x200A) ∨ n = 0x2028 ∨ n = 0x2029 ∨ n = 0x202F ∨
    n = 0x205F ∨ n = 0x3000)

/-- One fuel-indexed step list of `fn lexer`, at the character level (the
byte-slice advance, which can panic on multibyte characters, is modelled
separately in `lexerBytes`).  The Rust loop consumes at least one
character per iteration, so fuel `input.length` is always enough; fuel
`0` only occurs on empty input. -/
def lexerFuel : Nat → List Char → List Token
  | 0, _ => []
  | _ + 1, [] => []
  | fuel + 1, c :: rest =>
    let input := c :: rest
    if rustIsWhitespace c then lexerFuel fuel rest
    else if c = '(' then ⟨TokenKind.OpenParen, "("⟩ :: lexerFuel fuel rest
    else if c = ')' then ⟨TokenKind.CloseParen, ")"⟩ :: lexerFuel fuel rest
    else if c = '{' then ⟨TokenKind.OpenBrace, "\x7b"⟩ :: lexerFuel fuel rest
    else if c = '}' then ⟨TokenKind.CloseBrace, "\x7d"⟩ :: lexerFuel fuel rest
    else if c = ';' then ⟨TokenKind.Semicolon, ";"⟩ :: lexerFuel fuel rest
    else
      -- regex `^([0-9]+)\b`: longest digit run, then a word boundary
      let digitRun := input.takeWhile Char.isDigit
      if c.isDigit ∧ boundaryAfter (input.drop digitRun.length) = true then
        ⟨TokenKind.Constant, digitRun.asString⟩ ::
          lexerFuel fuel (input.drop digitRun.length)
      else if isIdentStart c then
        -- regex `^(void|int|return)\b`, tried inside the identifier branch
        if input.take 4 = "void".toList ∧ boundaryAfter (input.drop 4) = true then
          ⟨TokenKind.Keyword, "void"⟩ :: lexerFuel fuel (input.drop 4)
        else if input.take 3 = "int".toList ∧ boundaryAfter (input.drop 3) = true then
          ⟨TokenKind.Keyword, "int"⟩ :: lexerFuel fuel (input.drop 3)
        else if input.take 6 = "return".toList ∧ boundaryAfter (input.drop 6) = true then
          ⟨TokenKind.Keyword, "return"⟩ :: lexerFuel fuel (input.drop 6)
        else
          -- regex `^([a-zA-Z_]\w*)\b`: the maximal word run (boundary is
          -- automatic at the end of a maximal run)
          let wordRun := input.takeWhile isWordChar
          ⟨TokenKind.Identifier, wordRun.asString⟩ ::
            lexerFuel fuel (input.drop wordRun.length)
      else
        -- no pattern matches: zero-length error token, consume one character
        ⟨TokenKind.ErrorToken, ""⟩ :: lexerFuel fuel rest

/-- `fn lexer(text: String) -> Vec<Token>`.  No `Eof` token is appended
(the `token.push(Token::eof())` line is commented out in the source). -/
def lexer (input : List Char) : List Token :=
  lexerFuel input.length input

/-- Tree kinds, from `enum TreeKind`. -/
inductive TreeKind where
  | Program
  | Function
  | Return
  | ErrorTree
deriving DecidableEq

mutual
/-- A concrete syntax tree, from `struct Tree`. -/
inductive Tree where
  | mk (kind : TreeKind) (children : List Child)

/-- A tree child, from `enum Child`: a token or a nested tree. -/
inductive Child where
  | token (t : Token)
  | tree (t : Tree)
end

/-- The kind of a tree. -/
def Tree.kind : Tree → TreeKind
  | .mk k _ => k

/-- The children of a tree. -/
def Tree.children : Tree → List Child
  | .mk _ c => c

/-- Parser events, from `enum Event`. -/
inductive Event where
  | openK (kind : TreeKind)
  | close
  | advance
deriving DecidableEq

/-- The faults by which the parser terminates the process: the `expect`
syntax error (`process::exit(1)`), and the internal panics. -/
inductive PFault where
  | stuck                       -- nth: "parser is stuck"
  | expected (kind : TokenKind) -- expect: "expected {kind:?}" then exit(1)
  | expectedKeyword             -- parse_program: "expected a keyword"
  | assertFail                  -- advance / parse_function assertions
deriving DecidableEq

/-- `struct Parser`: token sequence, cursor, fuel, event log. -/
structure ParserState where
  tokens : List Token
  pos : Nat
  fuel : Nat
  events : List Event
deriving DecidableEq

/-- `struct MarkOpened`: an index into the event log. -/
structure MarkOpened where
  index : Nat

/-- `Parser::new`: cursor 0, fuel 256, empty event log. -/
def ParserState.new (tokens : List Token) : ParserState :=
  ⟨tokens, 0, 256, []⟩

/-- `Parser::eof`: cursor at the end of the token sequence. -/
def ParserState.isEof (p : ParserState) : Bool :=
  p.pos = p.tokens.length

/-- `Parser::open`: push a placeholder `Open(ErrorTree)` event, return its
index as a mark. -/
def ParserState.openMark (p : ParserState) : MarkOpened × ParserState :=
  (⟨p.events.length⟩, { p with events := p.events ++ [Event.openK TreeKind.ErrorTree] })

/-- `Parser::close`: overwrite the mark's placeholder event with the real
kind, push `Close`. -/
def ParserState.closeMark (p : ParserState) (m : MarkOpened) (kind : TreeKind) : ParserState :=
  { p with events := (p.events.set m.index (Event.openK kind)) ++ [Event.close] }

/-- `Parser::advance`: assert not at end, reset fuel to 256, push
`Advance`, move the cursor. -/
def ParserState.advance (p : ParserState) : Except PFault ParserState :=
  if p.isEof then Except.error PFault.assertFail
  else Except.ok { p with fuel := 256, events := p.events ++ [Event.advance], pos := p.pos + 1 }

/-- `Parser::nth`: fault with "parser is stuck" when fuel is exhausted,
else decrement fuel and peek the kind `lookahead` tokens ahead, `Eof` past
the end (`map_or(TokenKind::Eof, |t| t.kind)`). -/
def ParserState.nth (p : ParserState) (lookahead : Nat) : Except PFault (TokenKind × ParserState) :=
  if p.fuel = 0 then Except.error PFault.stuck
  else
    Except.ok (((p.tokens[p.pos + lookahead]?).map Token.kind).getD TokenKind.Eof,
               { p with fuel := p.fuel - 1 })

/-- `Parser::at`: `nth(0) == kind`. -/
def ParserState.atKind (p : ParserState) (kind : TokenKind) : Except PFault (Bool × ParserState) :=
  (p.nth 0).map fun kp => (kp.1 = kind, kp.2)

/-- `Parser::eat`: advance and return true when at the kind, else false. -/
def ParserState.eat (p : ParserState) (kind : TokenKind) : Except PFault (Bool × ParserState) :=
  match p.atKind kind with
  | Except.error e => Except.error e
  | Except.ok (b, p) =>
    if b then
      match p.advance with
      | Except.error e => Except.error e
      | Except.ok p => Except.ok (true, p)
    else Except.ok (false, p)

/-- `Parser::expect`: `eat` the kind or report "expected {kind:?}" and
terminate the compilation (`process::exit(1)`). -/
def ParserState.expect (p : ParserState) (kind : TokenKind) : Except PFault ParserState :=
  match p.eat kind with
  | Except.error e => Except.error e
  | Except.ok (b, p) => if b then Except.ok p else Except.error (PFault.expected kind)

/-- `fn parse_statement`: `"return" <constant> ";"`, closed as `Return`. -/
def parse_statement (p : ParserState) : Except PFault ParserState :=
  let (m, p) := p.openMark
  match p.expect TokenKind.Keyword with
  | Except.error e => Except.error e
  | Except.ok p =>
    match p.expect TokenKind.Constant with
    | Except.error e => Except.error e
    | Except.ok p =>
      match p.expect TokenKind.Semicolon with
      | Except.error e => Except.error e
      | Except.ok p => Except.ok (p.closeMark m TreeKind.Return)

/-- `fn parse_function`: assert at a keyword, then the fixed signature,
the statement body, and the closing brace, closed as `Function`. -/
def parse_function (p : ParserState) : Except PFault ParserState :=
  match p.atKind TokenKind.Keyword with
  | Except.error e => Except.error e
  | Except.ok (b, p) =>
    if !b then Except.error PFault.assertFail
    else
      let (m, p) := p.openMark
      match p.expect TokenKind.Keyword with
      | Except.error e => Except.error e
      | Except.ok p =>
        match p.expect TokenKind.Identifier with
        | Except.error e => Except.error e
        | Except.ok p =>
          match p.expect TokenKind.OpenParen with
          | Except.error e => Except.error e
          | Except.ok p =>
            match p.expect TokenKind.Keyword with
            | Except.error e => Except.error e
            | Except.ok p =>
              match p.expect TokenKind.CloseParen with
              | Except.error e => Except.error e
              | Except.ok p =>
                match p.expect TokenKind.OpenBrace with
                | Except.error e => Except.error e
                | Except.ok p =>
                  match parse_statement p with
                  | Except.error e => Except.error e
                  | Except.ok p =>
                    match p.expect TokenKind.CloseBrace with
                    | Except.error e => Except.error e
                    | Except.ok p => Except.ok (p.closeMark m TreeKind.Function)

/-- The `while !p.eof()` loop of `fn parse_program`.  `gas` only bounds the
iteration count for Lean's termination checker: each successful iteration
advances the cursor by at least one token, so `tokens.length + 1` gas is
always enough and the gas-exhaustion arm is unreachable from
`parse_program`.  The `dbg!(p.nth(0))` call in the source consumes fuel
and is modelled. -/
def parseProgramLoop : Nat → ParserState → Except PFault ParserState
  | 0, _ => Except.error PFault.stuck
  | gas + 1, p =>
    if p.isEof then Except.ok p
    else
      match p.nth 0 with   -- dbg!(p.nth(0))
      | Except.error e => Except.error e
      | Except.ok (_, p) =>
        match p.atKind TokenKind.Keyword with
        | Except.error e => Except.error e
        | Except.ok (b, p) =>
          if b then
            match parse_function p with
            | Except.error e => Except.error e
            | Except.ok p => parseProgramLoop gas p
          else Except.error PFault.expectedKeyword

/-- `fn parse_program`: open a mark, loop over functions while input
remains, close as `Program`. -/
def parse_program (p : ParserState) : Except PFault ParserState :=
  let (m, p) := p.openMark
  (parseProgramLoop (p.tokens.length + 1) p).map fun q => q.closeMark m TreeKind.Program

/-- The event-processing loop of `Parser::build_tree`: fold the event list
over a stack of in-progress frames, pulling tokens on `Advance`; `none`
models the `unwrap` panics (pop of an empty stack, push with no open frame,
exhausted token iterator). -/
def buildLoop : List Event → List Token → List Tree → Option (List Tree × List Token)
  | [], toks, stack => some (stack, toks)
  | Event.openK k :: es, toks, stack =>
    buildLoop es toks (Tree.mk k [] :: stack)
  | Event.close :: es, toks, stack =>
    match stack with
    | t :: Tree.mk k cs :: rest =>
      buildLoop es toks (Tree.mk k (cs ++ [Child.tree t]) :: rest)
    | _ => none
  | Event.advance :: es, toks, stack =>
    match toks, stack with
    | tok :: toks, Tree.mk k cs :: rest =>
      buildLoop es toks (Tree.mk k (cs ++ [Child.token tok]) :: rest)
    | _, _ => none

/-- `Parser::build_tree`: the last event must be `Close` and is dropped;
the remaining events are folded; exactly one frame must remain and the
token sequence must be fully drained. -/
def build_tree (p : ParserState) : Option Tree :=
  if p.events.getLast? = some Event.close then
    match buildLoop p.events.dropLast p.tokens [] with
    | some ([t], []) => some t
    | _ => none
  else none

/-- Parse a token sequence and build the tree, as `fn main` does
(`parse_program(&mut parser)` then `parser.build_tree()`). -/
def parseAndBuild (ts : List Token) : Option Tree :=
  match parse_program (ParserState.new ts) with
  | Except.ok p => build_tree p
  | Except.error _ => none

/-- Lex, parse and build the tree, as `fn main` does before lowering. -/
def frontend (text : String) : Option Tree :=
  parseAndBuild (lexer text.toList)

/-- `n` successive `nth(0)` lookahead calls with no intervening `advance`,
modelling a grammar rule that loops querying lookahead. -/
def iterNth : Nat → ParserState → Except PFault ParserState
  | 0, p => Except.ok p
  | n + 1, p =>
    match p.nth 0 with
    | Except.ok kp => iterNth n kp.2
    | Except.error e => Except.error e

/-- Assembly operands, from `enum ASMOperand`.  `Imm` carries the `u32`
immediate as a `Nat` that is `< 2^32` whenever built by `generate_return`. -/
inductive ASMOperand where
  | Imm (v : Nat)
  | Register
deriving DecidableEq

/-- Assembly instructions, from `enum ASMInstruction`. -/
inductive ASMInstruction where
  | Mov (src dst : ASMOperand)
  | Ret
deriving DecidableEq

/-- `struct ASMFunction`. -/
structure ASMFunction where
  identifier : String
  instructions : List ASMInstruction
deriving DecidableEq

/-- `struct ASMProgram(ASMFunction)`. -/
structure ASMProgram where
  f : ASMFunction
deriving DecidableEq

/-- The value of a digit string, most significant digit first. -/
def digitsToNat (cs : List Char) : Nat :=
  cs.foldl (fun acc c => acc * 10 + (c.toNat - '0'.toNat)) 0

/-- Rust's `str::parse::<u32>` (`u32::from_str`): an optional leading `+`,
then one or more ASCII digits, value at most `u32::MAX`; everything else
(including overflow) is an `Err`, which `unwrap` turns into a panic. -/
def rustParseU32 (s : String) : Option Nat :=
  let cs := s.toList
  let ds := if cs.head? = some '+' then cs.tail else cs
  if ds ≠ [] ∧ ds.all Char.isDigit = true then
    if digitsToNat ds < 2 ^ 32 then some (digitsToNat ds) else none
  else none

/-- `fn generate_return`: requires a `Return` tree with a `Constant` token
at child index 1 whose text parses as a `u32`; yields
`[Mov(Imm v, Register), Ret]`.  `none` models the panics and the
`text.parse().unwrap()` overflow panic. -/
def generate_return (tree : Tree) : Option (List ASMInstruction) :=
  match tree with
  | Tree.mk TreeKind.Return children =>
    match children[1]? with
    | some (Child.token ⟨TokenKind.Constant, text⟩) =>
      match rustParseU32 text with
      | some v =>
        some [ASMInstruction.Mov (ASMOperand.Imm v) ASMOperand.Register, ASMInstruction.Ret]
      | none => none
    | _ => none
  | _ => none

/-- `fn generate_function`: requires a `Function` tree with an
`Identifier` token at child index 1 and a tree child at index 6 (the
body, handed to `generate_return`). -/
def generate_function (tree : Tree) : Option ASMFunction :=
  match tree with
  | Tree.mk TreeKind.Function children =>
    match children[1]? with
    | some (Child.token ⟨TokenKind.Identifier, text⟩) =>
      match children[6]? with
      | some (Child.tree body) =>
        match generate_return body with
        | some instrs => some ⟨text, instrs⟩
        | none => none
      | _ => none
    | _ => none
  | _ => none

/-- `fn generate_assembly`: requires a `Program` tree whose FIRST child
(`children.first()`) is a tree child; any further children are ignored. -/
def generate_assembly (tree : Tree) : Option ASMProgram :=
  match tree with
  | Tree.mk TreeKind.Program children =>
    match children.head? with
    | some (Child.tree t) =>
      match generate_function t with
      | some f => some ⟨f⟩
      | none => none
    | _ => none
  | _ => none

/-- `fn emit_op`: `Imm i` as `$i`, `Register` as `%eax`. -/
def emit_op : ASMOperand → String
  | ASMOperand.Imm i => "$" ++ toString i
  | ASMOperand.Register => "%eax"

/-- One instruction line of `fn emit_program`. -/
def emitInstruction : ASMInstruction → String
  | ASMInstruction.Mov src dst => "\tmovl\t" ++ emit_op src ++ ", " ++ emit_op dst ++ "\n"
  | ASMInstruction.Ret => "\tret\n"

/-- `fn emit_program`: the `.globl` directive for `_name`, the `_name:`
label, then each instruction in order. -/
def emit_program (asm : ASMProgram) : String :=
  "\t.globl\t_" ++ asm.f.identifier ++ "\n" ++ "_" ++ asm.f.identifier ++ ":\n" ++
    String.join (asm.f.instructions.map emitInstruction)

/-- The full pipeline as run by `fn main` without stage flags: frontend,
lowering, emission. -/
def compile (text : String) : Option (ASMProgram × String) :=
  match frontend text with
  | some tree =>
    match generate_assembly tree with
    | some asm => some (asm, emit_program asm)
    | none => none
  | none => none

/-- The externally observable actions of `fn main` that the cleanup
obligation speaks about. -/
inductive MainEvent where
  | runPreprocessor            -- gcc -E -P writes the sibling .i file
  | removePrepFile             -- fs::remove_file(prep_file)
  | writeAsmFile (text : String) -- fs::write of the sibling .s file
  | runAssembler               -- gcc assembles and links
  | exitProcess (code : Nat)   -- process::exit / panic abort / return
deriving DecidableEq

/-- `fn main` as a trace of external actions, given the three stage-stop
flags and the preprocessed text the external preprocessor wrote to the
`.i` file.  Panics terminate the process with exit code 101; `expect`'s
syntax fault calls `process::exit(1)`.  Neither deletes the `.i` file. -/
def mainModel (lexFlag parseFlag codegenFlag : Bool) (preprocessed : String) :
    List MainEvent :=
  let pre := [MainEvent.runPreprocessor]
  let tokens := lexer preprocessed.toList
  if lexFlag then
    pre ++ [MainEvent.removePrepFile,
            MainEvent.exitProcess
              (if tokens.any (fun t => t.kind = TokenKind.ErrorToken) then 1 else 0)]
  else
    match parse_program (ParserState.new tokens) with
    | Except.error (PFault.expected _) => pre ++ [MainEvent.exitProcess 1]
    | Except.error _ => pre ++ [MainEvent.exitProcess 101]
    | Except.ok p =>
      match build_tree p with
      | none => pre ++ [MainEvent.exitProcess 101]
      | some tree =>
        if parseFlag then pre ++ [MainEvent.removePrepFile, MainEvent.exitProcess 0]
        else
          match generate_assembly tree with
          | none => pre ++ [MainEvent.exitProcess 101]
          | some asm =>
            if codegenFlag then pre ++ [MainEvent.removePrepFile, MainEvent.exitProcess 0]
            else
              pre ++ [MainEvent.writeAsmFile (emit_program asm),
                      MainEvent.removePrepFile,
                      MainEvent.runAssembler,
                      MainEvent.exitProcess 0]

/-- The `Function` subtree the parser builds for `int main(void){return 2;}`. -/
def mainFunctionTree : Tree :=
  Tree.mk TreeKind.Function
    [Child.token ⟨TokenKind.Keyword, "int"⟩,
     Child.token ⟨TokenKind.Identifier, "main"⟩,
     Child.token ⟨TokenKind.OpenParen, "("⟩,
     Child.token ⟨TokenKind.Keyword, "void"⟩,
     Child.token ⟨TokenKind.CloseParen, ")"⟩,
     Child.token ⟨TokenKind.OpenBrace, "\x7b"⟩,
     Child.tree (Tree.mk TreeKind.Return
       [Child.token ⟨TokenKind.Keyword, "return"⟩,
        Child.token ⟨TokenKind.Constant, "2"⟩,
        Child.token ⟨TokenKind.Semicolon, ";"⟩]),
     Child.token ⟨TokenKind.CloseBrace, "\x7d"⟩]

/-- A `Program` tree with TWO `Function` children: a shape the fixed
grammar never produces for a single function, used to probe lowering. -/
def twoFunctionProgram : Tree :=
  Tree.mk TreeKind.Program [Child.tree mainFunctionTree, Child.tree mainFunctionTree]

/-- The tree the frontend builds for `int main(void){return 4294967296;}`:
lexically and syntactically flawless, but the constant exceeds
`u32::MAX`. -/
def bigConstProgramTree : Tree :=
  Tree.mk TreeKind.Program
    [Child.tree (Tree.mk TreeKind.Function
      [Child.token ⟨TokenKind.Keyword, "int"⟩,
       Child.token ⟨TokenKind.Identifier, "main"⟩,
       Child.token ⟨TokenKind.OpenParen, "("⟩,
       Child.token ⟨TokenKind.Keyword, "void"⟩,
       Child.token ⟨TokenKind.CloseParen, ")"⟩,
       Child.token ⟨TokenKind.OpenBrace, "\x7b"⟩,
       Child.tree (Tree.mk TreeKind.Return
         [Child.token ⟨TokenKind.Keyword, "return"⟩,
          Child.token ⟨TokenKind.Constant, "4294967296"⟩,
          Child.token ⟨TokenKind.Semicolon, ";"⟩]),
       Child.token ⟨TokenKind.CloseBrace, "\x7d"⟩])]

end Zcc

namespace Zcc

/-- C7: for the input `"int main(void)\x7breturn 2;\x7d"`, the lexer yields
exactly the token-kind sequence `[Keyword, Identifier, OpenParen, Keyword,
CloseParen, OpenBrace, Keyword, Constant, Semicolon, CloseBrace]`. -/
theorem lex_return2_kinds :
    (lexer "int main(void)\x7breturn 2;\x7d".toList).map Token.kind =
      [TokenKind.Keyword, TokenKind.Identifier, TokenKind.OpenParen, TokenKind.Keyword,
       TokenKind.CloseParen, TokenKind.OpenBrace, TokenKind.Keyword, TokenKind.Constant,
       TokenKind.Semicolon, TokenKind.CloseBrace] := by decide

/-- C1: the input `"int main(void)\x7breturn 2;\x7d"` lowers to exactly
`ASMProgram(ASMFunction{identifier:"main",
instructions:[Mov{Imm(2),Register}, Ret]})`, and the emitter serializes it
to the assembly text with the `.globl` directive for `_main`, the `_main:`
label, `movl $2, %eax`, and `ret`, in that order. -/
theorem compile_return2_end_to_end :
    compile "int main(void)\x7breturn 2;\x7d" =
      some (⟨⟨"main", [ASMInstruction.Mov (ASMOperand.Imm 2) ASMOperand.Register,
                       ASMInstruction.Ret]⟩⟩,
            "\t.globl\t_main\n_main:\n\tmovl\t$2, %eax\n\tret\n") := by rfl

/-- C8: word-boundary anchoring with keyword-over-identifier priority only
on equal spans: `intx` lexes as the single `Identifier` token `"intx"`
(never `Keyword(int)` then `Identifier(x)`), while each reserved word
standing alone at a word boundary lexes as a `Keyword` token. -/
theorem keyword_boundary_lexing :
    lexer "intx".toList = [⟨TokenKind.Identifier, "intx"⟩] ∧
    lexer "int".toList = [⟨TokenKind.Keyword, "int"⟩] ∧
    lexer "void".toList = [⟨TokenKind.Keyword, "void"⟩] ∧
    lexer "return".toList = [⟨TokenKind.Keyword, "return"⟩] ∧
    lexer "int x".toList = [⟨TokenKind.Keyword, "int"⟩, ⟨TokenKind.Identifier, "x"⟩] := by
  decide

set_option maxHeartbeats 4000000 in
/-- C2: for every token sequence matching the grammar (one function of the
fixed form, arbitrary lexeme texts), `parse_program` followed by
`build_tree` yields a `Program` tree with exactly one `Function` child;
that child has the `Identifier` token at index 1, a `Return` tree at
index 6, and the `Return` tree holds its one `Constant` token at index 1. -/
theorem grammar_tokens_build_fixed_tree
    (s0 s1 s2 s3 s4 s5 s6 s7 s8 s9 : String) :
    parseAndBuild
      [⟨TokenKind.Keyword, s0⟩, ⟨TokenKind.Identifier, s1⟩, ⟨TokenKind.OpenParen, s2⟩,
       ⟨TokenKind.Keyword, s3⟩, ⟨TokenKind.CloseParen, s4⟩, ⟨TokenKind.OpenBrace, s5⟩,
       ⟨TokenKind.Keyword, s6⟩, ⟨TokenKind.Constant, s7⟩, ⟨TokenKind.Semicolon, s8⟩,
       ⟨TokenKind.CloseBrace, s9⟩] =
      some (Tree.mk TreeKind.Program
        [Child.tree (Tree.mk TreeKind.Function
          [Child.token ⟨TokenKind.Keyword, s0⟩, Child.token ⟨TokenKind.Identifier, s1⟩,
           Child.token ⟨TokenKind.OpenParen, s2⟩, Child.token ⟨TokenKind.Keyword, s3⟩,
           Child.token ⟨TokenKind.CloseParen, s4⟩, Child.token ⟨TokenKind.OpenBrace, s5⟩,
           Child.tree (Tree.mk TreeKind.Return
             [Child.token ⟨TokenKind.Keyword, s6⟩, Child.token ⟨TokenKind.Constant, s7⟩,
              Child.token ⟨TokenKind.Semicolon, s8⟩]),
           Child.token ⟨TokenKind.CloseBrace, s9⟩])]) := by
  simp [parseAndBuild, parse_program, parseProgramLoop, parse_function, parse_statement,
        ParserState.new, ParserState.openMark, ParserState.closeMark, ParserState.advance,
        ParserState.nth, ParserState.atKind, ParserState.eat, ParserState.expect,
        ParserState.isEof, build_tree, buildLoop, Except.map]

/-- C2 witness: the fixed-tree theorem instantiated at the concrete
lexemes of `int main(void){return 2;}`. -/
theorem grammar_tokens_build_fixed_tree_witness :
    parseAndBuild
      [⟨TokenKind.Keyword, "int"⟩, ⟨TokenKind.Identifier, "main"⟩,
       ⟨TokenKind.OpenParen, "("⟩, ⟨TokenKind.Keyword, "void"⟩,
       ⟨TokenKind.CloseParen, ")"⟩, ⟨TokenKind.OpenBrace, "\x7b"⟩,
       ⟨TokenKind.Keyword, "return"⟩, ⟨TokenKind.Constant, "2"⟩,
       ⟨TokenKind.Semicolon, ";"⟩, ⟨TokenKind.CloseBrace, "\x7d"⟩] =
      some (Tree.mk TreeKind.Program [Child.tree mainFunctionTree]) :=
  grammar_tokens_build_fixed_tree "int" "main" "(" "void" ")" "\x7b" "return" "2" ";" "\x7d"

/-- C3 counterexample: at the concrete input `";"` the lexer's output does
NOT end with a terminal `Eof` token (the `Token::eof()` push in the source
is commented out), refuting the claim's first half. -/
theorem lexer_no_eof_counterexample :
    ¬ ((lexer ";".toList).map Token.kind).getLast? = some TokenKind.Eof := by decide

/-- C6 counterexample: lowering a `Program` tree with TWO `Function`
children (violating the claimed "exactly one" shape condition) does not
fail; it silently emits code for the first child only. -/
theorem lowering_two_functions_counterexample :
    twoFunctionProgram.children.length = 2 ∧
    generate_assembly twoFunctionProgram =
      some ⟨⟨"main", [ASMInstruction.Mov (ASMOperand.Imm 2) ASMOperand.Register,
                      ASMInstruction.Ret]⟩⟩ := by
  exact ⟨rfl, rfl⟩

/-- C9: with no stage flag, on input whose preprocessed text is
`int main(void){return 2}` (missing semicolon) the driver takes `expect`'s
syntax-fault exit: the process terminates with code 1 and the transient
`.i` file is never deleted — while the same full-pipeline run on the
well-formed `int main(void){return 2;}` does delete it.  This contradicts
the cleanup-on-every-exit-path obligation. -/
theorem main_syntax_fault_skips_cleanup :
    mainModel false false false "int main(void)\x7breturn 2\x7d" =
      [MainEvent.runPreprocessor, MainEvent.exitProcess 1] ∧
    MainEvent.removePrepFile ∉ mainModel false false false "int main(void)\x7breturn 2\x7d" ∧
    MainEvent.removePrepFile ∈ mainModel false false false "int main(void)\x7breturn 2;\x7d" := by
  refine ⟨rfl, ?_, ?_⟩ <;> decide

/-- Helper: prepending a non-`Eof` token preserves `Eof`-freeness. -/
theorem eofFree_cons (k : TokenKind) (s : String) (ts : List Token)
    (hk : ¬ k = TokenKind.Eof) (hts : TokenKind.Eof ∉ ts.map Token.kind) :
    TokenKind.Eof ∉ (Token.mk k s :: ts).map Token.kind := by
  simp only [List.map_cons, List.mem_cons]
  rintro (h | h)
  · exact hk h.symm
  · exact hts h

/-- Helper: the lexer never emits a token of kind `Eof`, at any fuel. -/
theorem eof_not_mem_lexerFuel (fuel : Nat) :
    ∀ input : List Char, TokenKind.Eof ∉ (lexerFuel fuel input).map Token.kind := by
  induction fuel with
  | zero => intro input; simp [lexerFuel]
  | succ n ih =>
    intro input
    cases input with
    | nil => simp [lexerFuel]
    | cons c rest =>
      simp only [lexerFuel]
      by_cases h1 : rustIsWhitespace c = true
      · rw [if_pos h1]; exact ih rest
      rw [if_neg h1]
      by_cases h2 : c = '('
      · rw [if_pos h2]; exact eofFree_cons _ _ _ (by decide) (ih rest)
      rw [if_neg h2]
      by_cases h3 : c = ')'
      · rw [if_pos h3]; exact eofFree_cons _ _ _ (by decide) (ih rest)
      rw [if_neg h3]
      by_cases h4 : c = '{'
      · rw [if_pos h4]; exact eofFree_cons _ _ _ (by decide) (ih rest)
      rw [if_neg h4]
      by_cases h5 : c = '}'
      · rw [if_pos h5]; exact eofFree_cons _ _ _ (by decide) (ih rest)
      rw [if_neg h5]
      by_cases h6 : c = ';'
      · rw [if_pos h6]; exact eofFree_cons _ _ _ (by decide) (ih rest)
      rw [if_neg h6]
      by_cases h7 : c.isDigit = true ∧
          boundaryAfter ((c :: rest).drop ((c :: rest).takeWhile Char.isDigit).length) = true
      · rw [if_pos h7]; exact eofFree_cons _ _ _ (by decide) (ih _)
      rw [if_neg h7]
      by_cases h8 : isIdentStart c = true
      · rw [if_pos h8]
        by_cases h9 : (c :: rest).take 4 = "void".toList ∧
            boundaryAfter ((c :: rest).drop 4) = true
        · rw [if_pos h9]; exact eofFree_cons _ _ _ (by decide) (ih _)
        rw [if_neg h9]
        by_cases h10 : (c :: rest).take 3 = "int".toList ∧
            boundaryAfter ((c :: rest).drop 3) = true
        · rw [if_pos h10]; exact eofFree_cons _ _ _ (by decide) (ih _)
        rw [if_neg h10]
        by_cases h11 : (c :: rest).take 6 = "return".toList ∧
            boundaryAfter ((c :: rest).drop 6) = true
        · rw [if_pos h11]; exact eofFree_cons _ _ _ (by decide) (ih _)
        rw [if_neg h11]
        exact eofFree_cons _ _ _ (by decide) (ih _)
      rw [if_neg h8]
      exact eofFree_cons _ _ _ (by decide) (ih rest)

/-- C3 (amended): the lexer appends no terminal `Eof` token — in fact its
output never contains the `Eof` kind at all (the `Token::eof()` push is
commented out) — while `nth` lookahead at any position at or past the end
of the token sequence still returns the `Eof` kind (given nonzero fuel),
because of its `map_or(TokenKind::Eof, ..)` default. -/
theorem lexer_eof_policy :
    (∀ input : List Char, TokenKind.Eof ∉ (lexer input).map Token.kind) ∧
    (∀ (p : ParserState) (k : Nat), ¬ p.fuel = 0 → p.tokens.length ≤ p.pos + k →
      p.nth k = Except.ok (TokenKind.Eof, { p with fuel := p.fuel - 1 })) := by
  constructor
  · intro input
    exact eof_not_mem_lexerFuel input.length input
  · intro p k hf hlen
    unfold ParserState.nth
    rw [if_neg hf, List.getElem?_eq_none hlen]
    rfl

/-- C3 witness: a parser over an empty token sequence, fuel 256, returns
`Eof` for the lookahead at position 0. -/
theorem lexer_eof_policy_witness :
    (ParserState.mk [] 0 256 []).nth 0 =
      Except.ok (TokenKind.Eof, ParserState.mk [] 0 255 []) :=
  lexer_eof_policy.2 (ParserState.mk [] 0 256 []) 0 (by decide) (by decide)

/-- C5: `advance` resets the fuel budget to its ceiling 256; a sequence of
`nth` lookahead calls with no intervening advance (as performed by `at`,
failing `eat`s and failing `expect`s, which all route through `nth`)
succeeds while calls do not exceed the remaining fuel, consuming one fuel
per call, and any longer run of calls deterministically hits the
"parser is stuck" fault — in particular at most 256 lookahead calls ever
succeed from a fresh budget, and the computation never diverges. -/
theorem parser_fuel_liveness :
    (∀ (p p' : ParserState), p.advance = Except.ok p' → p'.fuel = 256) ∧
    (∀ (n : Nat) (p : ParserState), n ≤ p.fuel →
      iterNth n p = Except.ok { p with fuel := p.fuel - n }) ∧
    (∀ (n : Nat) (p : ParserState), p.fuel < n →
      iterNth n p = Except.error PFault.stuck) := by
  refine ⟨?_, ?_, ?_⟩
  · intro p p' h
    unfold ParserState.advance at h
    split at h
    · exact absurd h (by simp)
    · injection h with h
      subst h
      rfl
  · intro n
    induction n with
    | zero =>
      intro p h
      simp [iterNth]
    | succ m ih =>
      intro p h
      have hf : ¬ p.fuel = 0 := by omega
      have hn : p.nth 0 = Except.ok
          (((p.tokens[p.pos + 0]?).map Token.kind).getD TokenKind.Eof,
           { p with fuel := p.fuel - 1 }) := by
        unfold ParserState.nth
        rw [if_neg hf]
      rw [iterNth, hn]
      show iterNth m { p with fuel := p.fuel - 1 } = _
      rw [ih { p with fuel := p.fuel - 1 } (show m ≤ p.fuel - 1 by omega)]
      have harith : p.fuel - 1 - m = p.fuel - (m + 1) := by omega
      simp only [harith]
  · intro n
    induction n with
    | zero =>
      intro p h
      omega
    | succ m ih =>
      intro p h
      by_cases hf : p.fuel = 0
      · have hn : p.nth 0 = Except.error PFault.stuck := by
          unfold ParserState.nth
          rw [if_pos hf]
        rw [iterNth, hn]
      · have hn : p.nth 0 = Except.ok
            (((p.tokens[p.pos + 0]?).map Token.kind).getD TokenKind.Eof,
             { p with fuel := p.fuel - 1 }) := by
          unfold ParserState.nth
          rw [if_neg hf]
        rw [iterNth, hn]
        show iterNth m { p with fuel := p.fuel - 1 } = _
        exact ih { p with fuel := p.fuel - 1 } (show p.fuel - 1 < m by omega)

/-- Helper: exact success condition of `generate_return`. -/
theorem generate_return_isSome_iff (t : Tree) :
    (∃ r, generate_return t = some r) ↔
      t.kind = TreeKind.Return ∧
      ∃ ctext v, t.children[1]? = some (Child.token ⟨TokenKind.Constant, ctext⟩) ∧
        rustParseU32 ctext = some v := by
  obtain ⟨k, cs⟩ := t
  cases k
  case Program => simp [generate_return, Tree.kind]
  case Function => simp [generate_return, Tree.kind]
  case ErrorTree => simp [generate_return, Tree.kind]
  case Return =>
    simp only [generate_return, Tree.kind, Tree.children]
    rcases h1 : cs[1]? with _ | ch
    · simp [h1]
    · rcases ch with tok | tr
      · obtain ⟨tk, ttext⟩ := tok
        cases tk <;> rcases h2 : rustParseU32 ttext with _ | v <;> simp [h1, h2]
      · simp [h1]

/-- Helper: exact success condition of `generate_function`. -/
theorem generate_function_isSome_iff (t : Tree) :
    (∃ f, generate_function t = some f) ↔
      t.kind = TreeKind.Function ∧
      (∃ name, t.children[1]? = some (Child.token ⟨TokenKind.Identifier, name⟩)) ∧
      ∃ body, t.children[6]? = some (Child.tree body) ∧
        ∃ r, generate_return body = some r := by
  obtain ⟨k, cs⟩ := t
  cases k
  case Program => simp [generate_function, Tree.kind]
  case Return => simp [generate_function, Tree.kind]
  case ErrorTree => simp [generate_function, Tree.kind]
  case Function =>
    simp only [generate_function, Tree.kind, Tree.children]
    rcases h1 : cs[1]? with _ | ch
    · simp [h1]
    · rcases ch with tok | tr
      · obtain ⟨tk, ttext⟩ := tok
        cases tk
        case Identifier =>
          rcases h2 : cs[6]? with _ | ch6
          · simp [h1, h2]
          · rcases ch6 with tok6 | body
            · simp [h1, h2]
            · rcases h3 : generate_return body with _ | r <;> simp [h1, h2, h3]
        all_goals simp [h1]
      · simp [h1]

/-- Helper: exact success condition of `generate_assembly` in terms of
`generate_function` on the FIRST child. -/
theorem generate_assembly_isSome_iff (t : Tree) :
    (∃ prog, generate_assembly t = some prog) ↔
      t.kind = TreeKind.Program ∧
      ∃ f, t.children.head? = some (Child.tree f) ∧
        ∃ ff, generate_function f = some ff := by
  obtain ⟨k, cs⟩ := t
  cases k
  case Function => simp [generate_assembly, Tree.kind]
  case Return => simp [generate_assembly, Tree.kind]
  case ErrorTree => simp [generate_assembly, Tree.kind]
  case Program =>
    simp only [generate_assembly, Tree.kind, Tree.children]
    rcases h1 : cs.head? with _ | ch
    · simp [h1]
    · rcases ch with tok | f
      · simp [h1]
      · rcases h2 : generate_function f with _ | ff <;> simp [h1, h2]

/-- C6 (amended): lowering succeeds exactly when the tree has kind
`Program` and its FIRST child is a tree of kind `Function` with an
`Identifier` token at child index 1 and a tree of kind `Return` at child
index 6 holding a `Constant` token at its child index 1 whose text parses
as a `u32`.  A `Program` node's child count is never checked: extra
children — e.g. a second `Function` — are silently ignored, and on every
tree outside this shape lowering fails. -/
theorem lowering_success_characterization (t : Tree) :
    (∃ prog, generate_assembly t = some prog) ↔
      t.kind = TreeKind.Program ∧
      ∃ f, t.children.head? = some (Child.tree f) ∧
        (f.kind = TreeKind.Function ∧
         (∃ name, f.children[1]? = some (Child.token ⟨TokenKind.Identifier, name⟩)) ∧
          ∃ body, f.children[6]? = some (Child.tree body) ∧
            (body.kind = TreeKind.Return ∧
             ∃ ctext v, body.children[1]? = some (Child.token ⟨TokenKind.Constant, ctext⟩) ∧
               rustParseU32 ctext = some v)) := by
  rw [generate_assembly_isSome_iff]
  simp only [generate_function_isSome_iff, generate_return_isSome_iff]

/-- C6 witness: the characterization applied to the concrete valid
`Program` tree of `int main(void){return 2;}`, whose lowering succeeds. -/
theorem lowering_success_characterization_witness :
    ∃ prog, generate_assembly (Tree.mk TreeKind.Program [Child.tree mainFunctionTree]) =
      some prog :=
  (lowering_success_characterization
      (Tree.mk TreeKind.Program [Child.tree mainFunctionTree])).mpr
    ⟨rfl, mainFunctionTree, rfl, rfl, ⟨"main", rfl⟩,
     Tree.mk TreeKind.Return
       [Child.token ⟨TokenKind.Keyword, "return"⟩,
        Child.token ⟨TokenKind.Constant, "2"⟩,
        Child.token ⟨TokenKind.Semicolon, ";"⟩],
     rfl, rfl, "2", 2, rfl, rfl⟩

/-- C10: lowering a `Return` tree parses the `Constant` token's text via
Rust's `u32` parser with an unguarded `unwrap`: with a `Constant` token at
child index 1 it yields `[Mov(Imm v, Register), Ret]` exactly when the
text parses as `v ≤ 2^32 - 1`, and a digit string parses exactly when its
value is below `2^32`; the ten-digit constant `4294967296` passes the
lexer (no `ErrorToken`) and the parser (the frontend builds its tree), yet
lowering panics (fails) on it. -/
theorem generate_return_u32_parse :
    (∀ (cs : List Child) (ctext : String),
      cs[1]? = some (Child.token ⟨TokenKind.Constant, ctext⟩) →
      generate_return (Tree.mk TreeKind.Return cs) =
        Option.map (fun v => [ASMInstruction.Mov (ASMOperand.Imm v) ASMOperand.Register,
                              ASMInstruction.Ret]) (rustParseU32 ctext)) ∧
    (∀ ds : List Char, ¬ ds = [] → ds.all Char.isDigit = true →
      rustParseU32 (String.mk ds) =
        if digitsToNat ds < 2 ^ 32 then some (digitsToNat ds) else none) ∧
    frontend "int main(void)\x7breturn 4294967296;\x7d" = some bigConstProgramTree ∧
    generate_assembly bigConstProgramTree = none ∧
    (lexer "int main(void)\x7breturn 4294967296;\x7d".toList).all
      (fun t => !(t.kind = TokenKind.ErrorToken)) = true := by
  refine ⟨?_, ?_, by rfl, by rfl, by decide⟩
  · intro cs ctext h
    simp only [generate_return]
    rw [h]
    rcases hr : rustParseU32 ctext with _ | v <;> simp [hr]
  · intro ds hne hdig
    obtain ⟨c, rest, rfl⟩ := List.exists_cons_of_ne_nil hne
    have hdc : c.isDigit = true := by
      simp only [List.all_cons, Bool.and_eq_true] at hdig
      exact hdig.1
    have hc : ¬ (c :: rest).head? = some '+' := by
      simp only [List.head?_cons, Option.some.injEq]
      intro h
      rw [h] at hdc
      exact absurd hdc (by decide)
    simp only [rustParseU32, String.toList]
    rw [if_neg hc, if_pos ⟨by simp, hdig⟩]

/-- C10 witness: the `generate_return` law applied at the concrete
overflowing `Return` tree of `4294967296`, where the `u32` parse fails. -/
theorem generate_return_u32_parse_witness :
    generate_return (Tree.mk TreeKind.Return
      [Child.token ⟨TokenKind.Keyword, "return"⟩,
       Child.token ⟨TokenKind.Constant, "4294967296"⟩,
       Child.token ⟨TokenKind.Semicolon, ";"⟩]) =
      Option.map (fun v => [ASMInstruction.Mov (ASMOperand.Imm v) ASMOperand.Register,
                            ASMInstruction.Ret]) (rustParseU32 "4294967296") :=
  generate_return_u32_parse.1
    [Child.token ⟨TokenKind.Keyword, "return"⟩,
     Child.token ⟨TokenKind.Constant, "4294967296"⟩,
     Child.token ⟨TokenKind.Semicolon, ";"⟩] "4294967296" rfl

/-- C5 witness: from the fresh budget of 256, the 257th consecutive
lookahead call faults with "parser is stuck", and a concrete `advance`
resets fuel to 256. -/
theorem parser_fuel_liveness_witness :
    iterNth 257 (ParserState.new []) = Except.error PFault.stuck ∧
    (ParserState.mk [⟨TokenKind.Keyword, "int"⟩] 1 256 [Event.advance]).fuel = 256 :=
  ⟨parser_fuel_liveness.2.2 257 (ParserState.new []) (by decide),
   parser_fuel_liveness.1 (ParserState.mk [⟨TokenKind.Keyword, "int"⟩] 0 7 [])
     (ParserState.mk [⟨TokenKind.Keyword, "int"⟩] 1 256 [Event.advance]) (by rfl)⟩

end Zcc
